import Mathlib

/-!
Verification development for the EOG annotation plugin (`annotation.py`).

The Python source is shallowly embedded: shape records, the snapshot-based
undo/redo manager, the click-driven interaction state machine, the
export compositor and the save-path derivation are translated into
executable Lean definitions over `ℚ` (the Python floats carry only
arithmetic the claims need, so exact rationals are used), with Cairo's
transcendental functions and text measurement treated as an oracle.
-/

set_option autoImplicit false

namespace EogAnn

/-- Cairo text extents record (`x_bearing`, `y_bearing`, `width`, `height`)
as returned by `cr.text_extents`. -/
structure TextExtents where
  x_bearing : ℚ
  y_bearing : ℚ
  width : ℚ
  height : ℚ
deriving DecidableEq

/-- Oracle for the transcendental functions and the text measurement the
drawing code uses (`math.pi`, `math.cos`, `math.sin`, `math.atan2`,
`math.sqrt`, `cr.text_extents`).  Drawing commands are computed over `ℚ`
with these as uninterpreted functions.  `textExtents` takes the current
font size, italic flag, bold flag and the text. -/
structure CairoOracle where
  pi : ℚ
  cos : ℚ → ℚ
  sin : ℚ → ℚ
  atan2 : ℚ → ℚ → ℚ
  sqrt : ℚ → ℚ
  textExtents : ℚ → Bool → Bool → String → TextExtents

/-- One Cairo drawing command, as issued by `Annotation.draw` and the
per-kind helpers.  `selectFontFace` records the family, the italic flag
(`FONT_SLANT_ITALIC`) and the bold flag (`FONT_WEIGHT_BOLD`). -/
inductive DrawCmd where
  | setSourceRGB (r g b : ℚ)
  | setSourceRGBA (r g b a : ℚ)
  | setLineWidth (w : ℚ)
  | moveTo (x y : ℚ)
  | lineTo (x y : ℚ)
  | closePath
  | stroke
  | fill
  | arc (cx cy radius angle1 angle2 : ℚ)
  | rectangle (x y w h : ℚ)
  | selectFontFace (family : String) (italic bold : Bool)
  | setFontSize (size : ℚ)
  | showText (text : String)
  | paintImage
deriving DecidableEq

/-- The five tool kinds of the plugin (`'arrow'`, `'dot'`, `'rectangle'`,
`'circle'`, `'text'`). -/
inductive Tool where
  | arrow
  | dot
  | rectangle
  | circle
  | text
deriving DecidableEq

/-- One annotation record; models the Python class `Annotation` of
`annotation.py`, here named `Shape`, the spec's term for it.
`tool_type` is `none` when the Python field is `None`;
`x2`/`y2` are `none` for one-point kinds; `counter` is the numbered-dot
sequence number. -/
structure Shape where
  tool_type : Option Tool
  x1 : ℚ
  y1 : ℚ
  x2 : Option ℚ
  y2 : Option ℚ
  color : ℚ × ℚ × ℚ
  text : String
  counter : Option Nat
  text_bold : Bool
  text_italic : Bool
  text_size : ℚ
  line_width : ℚ
  arrow_style : Nat
deriving DecidableEq

/-- Models `Annotation.__init__`.  Arguments are positional; call sites
pass the Python defaults (`x2=None`, `y2=None`, `color=(0,0,1)`,
`text=""`, `text_bold=False`, `text_italic=False`, `text_size=14`,
`line_width=2`, `arrow_style=0`) explicitly where the Python call omits
them.  `counter` starts as `None`. -/
def Shape.new (tool_type : Option Tool) (x1 y1 : ℚ) (x2 y2 : Option ℚ)
    (color : ℚ × ℚ × ℚ) (text : String) (text_bold text_italic : Bool)
    (text_size line_width : ℚ) (arrow_style : Nat) : Shape :=
  { tool_type := tool_type, x1 := x1, y1 := y1, x2 := x2, y2 := y2,
    color := color, text := text, counter := none,
    text_bold := text_bold, text_italic := text_italic,
    text_size := text_size, line_width := line_width,
    arrow_style := arrow_style }

/-- Models `Annotation._draw_arrow`: skip when `x2`/`y2` are unset; draw
the segment, then the head for the five `arrow_style` values (an
unrecognized style draws no head). -/
def Shape.drawArrow (o : CairoOracle) (s : Shape) (scale_x scale_y : ℚ) :
    List DrawCmd :=
  match s.x2, s.y2 with
  | some px2, some py2 =>
    let x1 := s.x1 * scale_x
    let y1 := s.y1 * scale_y
    let x2 := px2 * scale_x
    let y2 := py2 * scale_y
    let line : List DrawCmd :=
      [DrawCmd.setSourceRGB s.color.1 s.color.2.1 s.color.2.2,
       DrawCmd.setLineWidth s.line_width,
       DrawCmd.moveTo x1 y1, DrawCmd.lineTo x2 y2, DrawCmd.stroke]
    let angle := o.atan2 (y2 - y1) (x2 - x1)
    let filledHead (arrow_len arrow_angle : ℚ) : List DrawCmd :=
      let x3 := x2 - arrow_len * o.cos (angle - arrow_angle)
      let y3 := y2 - arrow_len * o.sin (angle - arrow_angle)
      let x4 := x2 - arrow_len * o.cos (angle + arrow_angle)
      let y4 := y2 - arrow_len * o.sin (angle + arrow_angle)
      [DrawCmd.moveTo x2 y2, DrawCmd.lineTo x3 y3, DrawCmd.lineTo x4 y4,
       DrawCmd.closePath, DrawCmd.fill]
    let head : List DrawCmd :=
      if s.arrow_style = 0 then
        filledHead 15 (o.pi / 6)
      else if s.arrow_style = 1 then
        let arrow_len : ℚ := 15
        let arrow_angle := o.pi / 6
        let x3 := x2 - arrow_len * o.cos (angle - arrow_angle)
        let y3 := y2 - arrow_len * o.sin (angle - arrow_angle)
        let x4 := x2 - arrow_len * o.cos (angle + arrow_angle)
        let y4 := y2 - arrow_len * o.sin (angle + arrow_angle)
        [DrawCmd.moveTo x3 y3, DrawCmd.lineTo x2 y2, DrawCmd.lineTo x4 y4,
         DrawCmd.stroke]
      else if s.arrow_style = 2 then
        let arrow_len : ℚ := 12
        let arrow_angle := o.pi / 5
        let x3 := x2 - arrow_len * o.cos (angle - arrow_angle)
        let y3 := y2 - arrow_len * o.sin (angle - arrow_angle)
        let x4 := x2 - arrow_len * o.cos (angle + arrow_angle)
        let y4 := y2 - arrow_len * o.sin (angle + arrow_angle)
        [DrawCmd.moveTo x2 y2, DrawCmd.lineTo x3 y3, DrawCmd.stroke,
         DrawCmd.moveTo x2 y2, DrawCmd.lineTo x4 y4, DrawCmd.stroke]
      else if s.arrow_style = 3 then
        filledHead 10 (o.pi / 4)
      else if s.arrow_style = 4 then
        filledHead 20 (o.pi / 7)
      else []
    line ++ head
  | _, _ => []

/-- Models `Annotation._draw_dot`: a filled disc of radius `15.0` (note the
radius is never multiplied by the scale factors) centered at the scaled
first point, then — when `counter` is set — the number centered in the
disc in white bold `"Sans"` text at font size `14.0`. -/
def Shape.drawDot (o : CairoOracle) (s : Shape) (scale_x scale_y : ℚ) :
    List DrawCmd :=
  let x := s.x1 * scale_x
  let y := s.y1 * scale_y
  let radius : ℚ := 15
  [DrawCmd.arc x y radius 0 (2 * o.pi), DrawCmd.fill] ++
    (match s.counter with
     | none => []
     | some n =>
       let text := toString n
       let e := o.textExtents 14 false true text
       let tx := x - (e.width / 2 + e.x_bearing)
       let ty := y - (e.height / 2 + e.y_bearing)
       [DrawCmd.setSourceRGB 1 1 1,
        DrawCmd.selectFontFace "Sans" false true,
        DrawCmd.setFontSize 14,
        DrawCmd.moveTo tx ty, DrawCmd.showText text])

/-- Models `Annotation._draw_rectangle`: skip when `x2`/`y2` are unset;
normalize the two points into (min,min)-(max,max) corners, then stroke
the outline. -/
def Shape.drawRectangle (s : Shape) (scale_x scale_y : ℚ) : List DrawCmd :=
  match s.x2, s.y2 with
  | some px2, some py2 =>
    let x1 := min s.x1 px2 * scale_x
    let y1 := min s.y1 py2 * scale_y
    let x2 := max s.x1 px2 * scale_x
    let y2 := max s.y1 py2 * scale_y
    let width := x2 - x1
    let height := y2 - y1
    [DrawCmd.rectangle x1 y1 width height, DrawCmd.stroke]
  | _, _ => []

/-- Models `Annotation._draw_circle`: skip when `x2`/`y2` are unset;
center at the scaled first point, radius the Euclidean distance between
the scaled points, stroked outline. -/
def Shape.drawCircle (o : CairoOracle) (s : Shape) (scale_x scale_y : ℚ) :
    List DrawCmd :=
  match s.x2, s.y2 with
  | some px2, some py2 =>
    let cx := s.x1 * scale_x
    let cy := s.y1 * scale_y
    let dx := (px2 - s.x1) * scale_x
    let dy := (py2 - s.y1) * scale_y
    let radius := o.sqrt (dx * dx + dy * dy)
    [DrawCmd.arc cx cy radius 0 (2 * o.pi), DrawCmd.stroke]
  | _, _ => []

/-- Models `Annotation._draw_text`: a no-op for empty text; otherwise a
semi-transparent white background rectangle padded by 5 around the
measured extents, then the text in the shape's color, font size scaled by
`scale_x`. -/
def Shape.drawText (o : CairoOracle) (s : Shape) (scale_x scale_y : ℚ) :
    List DrawCmd :=
  if s.text = "" then []
  else
    let x := s.x1 * scale_x
    let y := s.y1 * scale_y
    let font_size := s.text_size * scale_x
    let e := o.textExtents font_size s.text_italic s.text_bold s.text
    let padding : ℚ := 5
    [DrawCmd.setSourceRGBA 1 1 1 (4 / 5),
     DrawCmd.selectFontFace "Sans" s.text_italic s.text_bold,
     DrawCmd.setFontSize font_size,
     DrawCmd.rectangle (x + e.x_bearing - padding) (y + e.y_bearing - padding)
       (e.width + 2 * padding) (e.height + 2 * padding),
     DrawCmd.fill,
     DrawCmd.setSourceRGB s.color.1 s.color.2.1 s.color.2.2,
     DrawCmd.selectFontFace "Sans" s.text_italic s.text_bold,
     DrawCmd.setFontSize font_size,
     DrawCmd.moveTo x y, DrawCmd.showText s.text]

/-- Models `Annotation.draw`: set the shape's color and line width, then
dispatch on `tool_type` (a `None` tool type falls through every branch
and draws nothing further). -/
def Shape.draw (o : CairoOracle) (s : Shape) (scale_x scale_y : ℚ) :
    List DrawCmd :=
  [DrawCmd.setSourceRGB s.color.1 s.color.2.1 s.color.2.2,
   DrawCmd.setLineWidth s.line_width] ++
    (match s.tool_type with
     | some Tool.arrow => s.drawArrow o scale_x scale_y
     | some Tool.dot => s.drawDot o scale_x scale_y
     | some Tool.rectangle => s.drawRectangle scale_x scale_y
     | some Tool.circle => s.drawCircle o scale_x scale_y
     | some Tool.text => s.drawText o scale_x scale_y
     | none => [])

/-- Models `AnnotationManager`: the current shape list, the in-progress
shape, and the undo/redo stacks of full snapshots.  Stacks have their top
at the list head (Python appends and pops at the end of the list;
`pop(0)` trims the oldest entry, the last element here).  `max_history =
0` means unlimited. -/
structure ShapeManager where
  annotations : List Shape
  current_shape : Option Shape
  undo_stack : List (List Shape)
  redo_stack : List (List Shape)
  max_history : Nat
deriving DecidableEq

/-- Models `AnnotationManager.__init__`. -/
def ShapeManager.fresh : ShapeManager :=
  { annotations := [], current_shape := none, undo_stack := [],
    redo_stack := [], max_history := 0 }

/-- Models `AnnotationManager._save_state`: push a deep copy of the
current list onto the undo stack, clear the redo stack, and drop the
oldest entry when `max_history` is positive and exceeded. -/
def ShapeManager.save_state (m : ShapeManager) : ShapeManager :=
  { m with
      undo_stack :=
        if 0 < m.max_history ∧
            m.max_history < (m.annotations :: m.undo_stack).length then
          (m.annotations :: m.undo_stack).dropLast
        else m.annotations :: m.undo_stack,
      redo_stack := [] }

/-- Models `AnnotationManager.can_undo` (`len(self.undo_stack) > 0`). -/
def ShapeManager.can_undo (m : ShapeManager) : Bool :=
  decide (0 < m.undo_stack.length)

/-- Models `AnnotationManager.can_redo` (`len(self.redo_stack) > 0`). -/
def ShapeManager.can_redo (m : ShapeManager) : Bool :=
  decide (0 < m.redo_stack.length)

/-- Models `AnnotationManager.undo`: returns the new manager and the Bool
the Python method returns.  The `can_undo` guard is realized by matching
on the undo stack. -/
def ShapeManager.undo (m : ShapeManager) : ShapeManager × Bool :=
  match m.undo_stack with
  | [] => (m, false)
  | prev :: rest =>
      ({ m with redo_stack := m.annotations :: m.redo_stack,
                annotations := prev, undo_stack := rest }, true)

/-- Models `AnnotationManager.redo`: symmetric to `undo`. -/
def ShapeManager.redo (m : ShapeManager) : ShapeManager × Bool :=
  match m.redo_stack with
  | [] => (m, false)
  | nxt :: rest =>
      ({ m with undo_stack := m.annotations :: m.undo_stack,
                annotations := nxt, redo_stack := rest }, true)

/-- Models `AnnotationManager.add_annotation`, here named `add_shape`:
save state, then append the completed shape. -/
def ShapeManager.add_shape (m : ShapeManager) (a : Shape) : ShapeManager :=
  let m' := m.save_state
  { m' with annotations := m'.annotations ++ [a] }

/-- Models `AnnotationManager.clear`: save state, then reset the current
list and the in-progress shape. -/
def ShapeManager.clear (m : ShapeManager) : ShapeManager :=
  let m' := m.save_state
  { m' with annotations := [], current_shape := none }

/-- The toolbar selections the interaction code reads
(`AnnotationToolbar.current_color` / `current_line_width` /
`current_arrow_style`). -/
structure ToolbarState where
  current_color : ℚ × ℚ × ℚ
  current_line_width : ℚ
  current_arrow_style : Nat
deriving DecidableEq

/-- Outcome of the blocking text-entry dialog in `_on_button_press`:
whether OK was pressed, the entered text and the chosen formatting. -/
structure DialogResult where
  response_ok : Bool
  text : String
  bold : Bool
  italic : Bool
  size : ℚ
deriving DecidableEq

/-- The interaction-relevant state of `AnnotationPlugin`: the shared
manager, the dot counter, the selected tool, the pending two-click shape
state and the remembered text-dialog defaults. -/
structure PluginState where
  toolbar : ToolbarState
  manager : ShapeManager
  counter : Nat
  current_tool : Option Tool
  shape_start_point : Option (ℚ × ℚ)
  shape_preview_end : Option (ℚ × ℚ)
  shape_type : Option Tool
  text_bold_default : Bool
  text_italic_default : Bool
  text_size_default : ℚ
deriving DecidableEq

/-- Models `AnnotationPlugin.__init__` plus the toolbar defaults set up in
`do_activate` (blue color, 2 px line width, standard arrow style). -/
def PluginState.fresh : PluginState :=
  { toolbar := { current_color := (0, 0, 1), current_line_width := 2,
                 current_arrow_style := 0 },
    manager := ShapeManager.fresh, counter := 1, current_tool := none,
    shape_start_point := none, shape_preview_end := none, shape_type := none,
    text_bold_default := false, text_italic_default := false,
    text_size_default := 14 }

/-- One UI event delivered to the plugin's handlers.  `toolChanged none`
models the `""` tool string; `buttonPress` carries the pointer position,
the button number and the outcome the text dialog would produce if it
were opened. -/
inductive Event where
  | toolChanged (tool : Option Tool)
  | buttonPress (x y : ℚ) (button : Nat) (dialog : DialogResult)
  | motion (x y : ℚ)
  | undoClicked
  | redoClicked
  | clearClicked
  | colorChanged (r g b : ℚ)
  | lineWidthChanged (w : ℚ)
  | arrowStyleChanged (style : Nat)
deriving DecidableEq

/-- The branch of `_on_button_press` for the two-click tools (`arrow`,
`rectangle`, `circle`): the first click records the start point,
initializes the preview point and the shape type; the second click
commits a shape built from the saved start point and `self.shape_type`,
then clears the pending state. -/
def twoClickPress (s : PluginState) (tool : Tool) (x y : ℚ) : PluginState :=
  match s.shape_start_point with
  | none =>
      { s with shape_start_point := some (x, y),
               shape_preview_end := some (x, y),
               shape_type := some tool }
  | some (x1, y1) =>
      let shape_type := s.shape_type
      let line_width := s.toolbar.current_line_width
      let astyle := if shape_type = some Tool.arrow
                    then s.toolbar.current_arrow_style else 0
      let ann := Shape.new shape_type x1 y1 (some x) (some y)
        s.toolbar.current_color "" false false 14 line_width astyle
      { s with manager := s.manager.add_shape ann,
               shape_start_point := none,
               shape_preview_end := none,
               shape_type := none }

/-- Models `_on_button_press` (all tools).  A missing tool or a
non-primary button leaves the state unchanged.  The dot branch assigns
`self.counter` to the new shape and increments the counter; the text
branch commits only when the dialog returned OK with non-empty text, and
then remembers the formatting as the new defaults. -/
def buttonPress (s : PluginState) (x y : ℚ) (button : Nat)
    (dialog : DialogResult) : PluginState :=
  match s.current_tool with
  | none => s
  | some tool =>
    if button ≠ 1 then s
    else
      match tool with
      | Tool.arrow => twoClickPress s Tool.arrow x y
      | Tool.rectangle => twoClickPress s Tool.rectangle x y
      | Tool.circle => twoClickPress s Tool.circle x y
      | Tool.dot =>
          let ann := Shape.new (some Tool.dot) x y none none
            s.toolbar.current_color "" false false 14
            s.toolbar.current_line_width 0
          let ann' := { ann with counter := some s.counter }
          { s with counter := s.counter + 1,
                   manager := s.manager.add_shape ann' }
      | Tool.text =>
          if dialog.response_ok ∧ dialog.text ≠ "" then
            let ann := Shape.new (some Tool.text) x y none none
              s.toolbar.current_color dialog.text dialog.bold dialog.italic
              dialog.size s.toolbar.current_line_width 0
            { s with text_bold_default := dialog.bold,
                     text_italic_default := dialog.italic,
                     text_size_default := dialog.size,
                     manager := s.manager.add_shape ann }
          else s

/-- One step of the plugin's event handling, assembled from the handlers
`_on_tool_changed`, `_on_button_press`, `_on_motion`,
`_on_undo_clicked`, `_on_redo_clicked`, `_on_clear_clicked` and the
toolbar-setting handlers. -/
def step (s : PluginState) (e : Event) : PluginState :=
  match e with
  | Event.toolChanged t =>
      { s with current_tool := t, shape_start_point := none,
               shape_preview_end := none, shape_type := none }
  | Event.buttonPress x y b d => buttonPress s x y b d
  | Event.motion x y =>
      if s.shape_start_point.isSome
      then { s with shape_preview_end := some (x, y) }
      else s
  | Event.undoClicked => { s with manager := s.manager.undo.1 }
  | Event.redoClicked => { s with manager := s.manager.redo.1 }
  | Event.clearClicked => { s with manager := s.manager.clear, counter := 1 }
  | Event.colorChanged r g b =>
      { s with toolbar := { s.toolbar with current_color := (r, g, b) } }
  | Event.lineWidthChanged w =>
      { s with toolbar := { s.toolbar with current_line_width := w } }
  | Event.arrowStyleChanged st =>
      { s with toolbar := { s.toolbar with current_arrow_style := st } }

/-- Fold `step` over a list of events. -/
def run (s : PluginState) (evs : List Event) : PluginState :=
  match evs with
  | [] => s
  | e :: rest => run (step s e) rest

/-- A full-resolution pixel buffer (`GdkPixbuf`), reduced to its
dimensions. -/
structure Pixbuf where
  width : Int
  height : Int
deriving DecidableEq

/-- A widget allocation (`view.get_allocation()`), reduced to its
dimensions. -/
structure Allocation where
  width : Int
  height : Int
deriving DecidableEq

/-- A `GFile` as returned by `image.get_file()`; `get_path()` may fail. -/
structure GFile where
  path : Option String
deriving DecidableEq

/-- An `EogImage` as returned by `window.get_image()`: its pixel buffer
and its file may each be unavailable. -/
structure EogImage where
  pixbuf : Option Pixbuf
  file : Option GFile
deriving DecidableEq

/-- The result of `_render_annotations_to_pixbuf` when it succeeds: the
image-resolution dimensions, the computed scale factors, and the drawing
commands (paint the original image, then every committed shape at the
computed scale). -/
structure RenderedImage where
  width : Int
  height : Int
  scale_x : ℚ
  scale_y : ℚ
  commands : List DrawCmd
deriving DecidableEq

/-- Models `AnnotationPlugin._render_annotations_to_pixbuf`: `none` when
the image, its pixel buffer, or the view is unavailable; otherwise the
scale factors are `img_dim / max(view_dim, 1)` — a zero view dimension is
clamped, not rejected — and every committed shape is drawn at that
scale over the painted image. -/
def render_to_pixbuf (o : CairoOracle) (image : Option EogImage)
    (image_view : Option Allocation) (anns : List Shape) :
    Option RenderedImage :=
  match image with
  | none => none
  | some img =>
    match img.pixbuf with
    | none => none
    | some pb =>
      match image_view with
      | none => none
      | some alloc =>
        let scale_x : ℚ := (pb.width : ℚ) / ((max alloc.width 1 : Int) : ℚ)
        let scale_y : ℚ := (pb.height : ℚ) / ((max alloc.height 1 : Int) : ℚ)
        some { width := pb.width, height := pb.height,
               scale_x := scale_x, scale_y := scale_y,
               commands := DrawCmd.paintImage ::
                 (anns.map (fun a => a.draw o scale_x scale_y)).flatten }

/-- Models `_on_copy_clicked`: render, and on success place the result on
the clipboard.  The plugin state is returned unchanged; the Bool records
whether a pixbuf was produced (the handler's observable success). -/
def on_copy_clicked (o : CairoOracle) (image : Option EogImage)
    (view : Option Allocation) (s : PluginState) : PluginState × Bool :=
  match render_to_pixbuf o image view s.manager.annotations with
  | some _ => (s, true)
  | none => (s, false)

/-- The encoder chosen by `_on_save_clicked`: JPEG at quality 95, or
PNG. -/
inductive ImageFormat where
  | jpeg95
  | png
deriving DecidableEq

/-- Python `str.rfind` for a single character: the index of the last
occurrence in `l`, or `-1`. -/
def pyRfind : List Char → Char → Int
  | [], _ => -1
  | a :: as, c =>
    if 0 ≤ pyRfind as c then pyRfind as c + 1
    else if a = c then 0 else -1

/-- Models CPython `posixpath.splitext` (i.e. `genericpath._splitext`
with `sep = '/'` and `extsep = '.'`): split at the last dot provided it
lies after the last slash and some character of the basename strictly
before it is not a dot; otherwise the extension is empty. -/
def splitextList (p : List Char) : List Char × List Char :=
  if pyRfind p '/' < pyRfind p '.' ∧
      (List.range' (pyRfind p '/' + 1).toNat
          (pyRfind p '.' - pyRfind p '/' - 1).toNat).any
        (fun i => decide (p.getD i '.' ≠ '.')) = true then
    (p.take (pyRfind p '.').toNat, p.drop (pyRfind p '.').toNat)
  else (p, [])

/-- `os.path.splitext` on strings. -/
def splitext (p : String) : String × String :=
  let r := splitextList p.data
  (⟨r.1⟩, ⟨r.2⟩)

/-- Python `str.lower` (ASCII paths). -/
def lowerStr (s : String) : String := ⟨s.data.map Char.toLower⟩

/-- Models the output-path and encoder selection of `_on_save_clicked`
(lines 1864–1884): insert `-annotated` before the extension; a
case-insensitive `.jpg`/`.jpeg` extension selects JPEG at quality 95,
`.png` selects PNG, and any other extension is replaced by `.png` (via a
second `splitext` on the output path) with the PNG encoder. -/
def save_output (file_path : String) : String × ImageFormat :=
  let base := (splitext file_path).1
  let ext := (splitext file_path).2
  let output_path := base ++ "-annotated" ++ ext
  let ext_lower := lowerStr ext
  if ext_lower = ".jpg" ∨ ext_lower = ".jpeg" then
    (output_path, ImageFormat.jpeg95)
  else if ext_lower = ".png" then (output_path, ImageFormat.png)
  else ((splitext output_path).1 ++ ".png", ImageFormat.png)

/-- Models `_on_save_clicked` end to end: abort (returning `none`) when
the image, its file, its path, or the rendering is unavailable; otherwise
save the rendered pixbuf under the derived output path with the chosen
encoder.  The plugin state is returned unchanged. -/
def on_save_clicked (o : CairoOracle) (image : Option EogImage)
    (view : Option Allocation) (s : PluginState) :
    PluginState × Option (String × ImageFormat) :=
  match image with
  | none => (s, none)
  | some img =>
    match img.file with
    | none => (s, none)
    | some f =>
      match f.path with
      | none => (s, none)
      | some file_path =>
        match render_to_pixbuf o (some img) view s.manager.annotations with
        | none => (s, none)
        | some _ => (s, some (save_output file_path))

/-- C2: in every history state, `can_undo` returns false iff the undo
stack is empty and `can_redo` returns false iff the redo stack is empty;
and every mutating operation other than undo/redo (any add or clear)
leaves the redo stack empty — in particular immediately after any add or
clear, including one performed after an undo, `can_redo` is false. -/
theorem claim2_history_flags (m : ShapeManager) (a : Shape) :
    (m.can_undo = false ↔ m.undo_stack = []) ∧
    (m.can_redo = false ↔ m.redo_stack = []) ∧
    (m.add_shape a).redo_stack = [] ∧
    m.clear.redo_stack = [] ∧
    (m.add_shape a).can_redo = false ∧
    m.clear.can_redo = false := by
  refine ⟨?_, ?_, rfl, rfl, rfl, rfl⟩ <;>
    simp [ShapeManager.can_undo, ShapeManager.can_redo,
      List.length_eq_zero, List.length_pos]

/-- C3: `undo` returns false and leaves the manager unchanged when the
undo stack is empty; otherwise it pushes the current set onto the redo
stack, pops the top of the undo stack into the current set and returns
true.  `redo` is symmetric. -/
theorem claim3_undo_redo_ops (m : ShapeManager) :
    (m.undo_stack = [] → m.undo = (m, false)) ∧
    (∀ prev rest, m.undo_stack = prev :: rest →
      m.undo = ({ m with annotations := prev, undo_stack := rest,
                         redo_stack := m.annotations :: m.redo_stack },
                true)) ∧
    (m.redo_stack = [] → m.redo = (m, false)) ∧
    (∀ nxt rest, m.redo_stack = nxt :: rest →
      m.redo = ({ m with annotations := nxt, redo_stack := rest,
                         undo_stack := m.annotations :: m.undo_stack },
                true)) := by
  obtain ⟨anns, cs, us, rs, mh⟩ := m
  refine ⟨?_, ?_, ?_, ?_⟩
  · intro h; subst h; rfl
  · intro prev rest h; subst h; rfl
  · intro h; subst h; rfl
  · intro nxt rest h; subst h; rfl

/-- Witness for C3 at concrete managers: an empty manager's `undo` fails
and leaves it unchanged, and a manager with one snapshot on the undo
stack pops it. -/
theorem claim3_witness :
    ShapeManager.fresh.undo = (ShapeManager.fresh, false) ∧
    ({ ShapeManager.fresh with undo_stack := [[]] } : ShapeManager).undo =
      ({ ShapeManager.fresh with
          annotations := [], undo_stack := [], redo_stack := [[]] },
        true) := by
  constructor
  · exact (claim3_undo_redo_ops ShapeManager.fresh).1 rfl
  · exact ((claim3_undo_redo_ops
      { ShapeManager.fresh with undo_stack := [[]] }).2.1 [] [] rfl).trans
      (by rfl)

/-- Apply `undo` `n` times in sequence (the returned Bools are read only
for button updates in `_on_undo_clicked`). -/
def undoTimes : Nat → ShapeManager → ShapeManager
  | 0, m => m
  | n + 1, m => undoTimes n m.undo.1

/-- Apply `redo` `n` times in sequence. -/
def redoTimes : Nat → ShapeManager → ShapeManager
  | 0, m => m
  | n + 1, m => redoTimes n m.redo.1

/-- Add a list of completed shapes in order via `add_shape`. -/
def addAll (m : ShapeManager) (l : List Shape) : ShapeManager :=
  match l with
  | [] => m
  | a :: rest => addAll (m.add_shape a) rest

theorem undoTimes_succ (n : Nat) (m : ShapeManager) :
    undoTimes (n + 1) m = (undoTimes n m).undo.1 := by
  induction n generalizing m with
  | zero => rfl
  | succ k ih =>
      calc undoTimes (k + 2) m = undoTimes (k + 1) m.undo.1 := rfl
        _ = (undoTimes k m.undo.1).undo.1 := ih m.undo.1
        _ = (undoTimes (k + 1) m).undo.1 := rfl

theorem redo_undo (m : ShapeManager) (h : m.undo_stack ≠ []) :
    m.undo.1.redo.1 = m := by
  obtain ⟨anns, cs, us, rs, mh⟩ := m
  match us with
  | [] => exact absurd rfl h
  | p :: rest => rfl

theorem undo_fst_stack (m : ShapeManager) :
    m.undo.1.undo_stack = m.undo_stack.tail := by
  obtain ⟨anns, cs, us, rs, mh⟩ := m
  cases us <;> rfl

theorem undoTimes_stack_length (n : Nat) (m : ShapeManager)
    (h : n ≤ m.undo_stack.length) :
    (undoTimes n m).undo_stack.length = m.undo_stack.length - n := by
  induction n with
  | zero => simp [undoTimes]
  | succ k ih =>
      rw [undoTimes_succ, undo_fst_stack, List.length_tail,
        ih (Nat.le_of_succ_le h)]
      omega

theorem redoTimes_undoTimes (n : Nat) (m : ShapeManager)
    (h : n ≤ m.undo_stack.length) :
    redoTimes n (undoTimes n m) = m := by
  induction n with
  | zero => rfl
  | succ k ih =>
      rw [undoTimes_succ]
      show redoTimes k (undoTimes k m).undo.1.redo.1 = m
      rw [redo_undo]
      · exact ih (Nat.le_of_succ_le h)
      · have hl := undoTimes_stack_length k m (Nat.le_of_succ_le h)
        intro hnil
        rw [hnil] at hl
        simp at hl
        omega

theorem addAll_stack_length (l : List Shape) (m : ShapeManager)
    (h : m.max_history = 0) :
    (addAll m l).undo_stack.length = m.undo_stack.length + l.length := by
  induction l generalizing m with
  | nil => simp [addAll]
  | cons a rest ih =>
      have hmax : (m.add_shape a).max_history = 0 := h
      have hlen : (m.add_shape a).undo_stack.length =
          m.undo_stack.length + 1 := by
        simp [ShapeManager.add_shape, ShapeManager.save_state, h]
      calc (addAll (m.add_shape a) rest).undo_stack.length
          = (m.add_shape a).undo_stack.length + rest.length := ih _ hmax
        _ = m.undo_stack.length + (a :: rest).length := by
            rw [hlen]; simp; omega

/-- C1: starting from a fresh manager, after any sequence of adds,
undoing exactly `n` times and then redoing exactly `n` times (for any
`n` not exceeding the number of adds) restores a shape list deep-equal
to the one before the undos. -/
theorem claim1_undo_redo_round_trip (l : List Shape) (n : Nat)
    (h : n ≤ l.length) :
    (redoTimes n (undoTimes n (addAll ShapeManager.fresh l))).annotations =
      (addAll ShapeManager.fresh l).annotations := by
  rw [redoTimes_undoTimes]
  rw [addAll_stack_length l ShapeManager.fresh rfl]
  simpa [ShapeManager.fresh] using h

/-- A concrete dot shape for witnesses. -/
def shapeA : Shape :=
  Shape.new (some Tool.dot) 1 2 none none (0, 0, 1) "" false false 14 2 0

/-- A concrete rectangle shape for witnesses. -/
def shapeB : Shape :=
  Shape.new (some Tool.rectangle) 3 4 (some 5) (some 6) (0, 0, 1) ""
    false false 14 2 0

/-- Witness for C1: two adds, two undos, two redos. -/
theorem claim1_witness :
    2 ≤ ([shapeA, shapeB] : List Shape).length ∧
    (redoTimes 2 (undoTimes 2
        (addAll ShapeManager.fresh [shapeA, shapeB]))).annotations =
      (addAll ShapeManager.fresh [shapeA, shapeB]).annotations :=
  ⟨by decide, claim1_undo_redo_round_trip [shapeA, shapeB] 2 (by decide)⟩

/-- C10: `clear` on an already empty set is still recorded as a history
event: the (empty) snapshot is pushed onto the undo stack and the redo
stack is emptied, so afterwards `can_undo` is true and `can_redo` is
false even though the visible set is unchanged. -/
theorem claim10_clear_records_history (m : ShapeManager)
    (h : m.annotations = []) :
    m.clear.annotations = m.annotations ∧
    m.clear.undo_stack.head? = some m.annotations ∧
    m.clear.can_undo = true ∧
    m.clear.can_redo = false := by
  refine ⟨by simp [ShapeManager.clear, ShapeManager.save_state, h], ?_, ?_, rfl⟩
  · show ((m.save_state).undo_stack).head? = some m.annotations
    unfold ShapeManager.save_state
    split
    · next hcond =>
        match hu : m.undo_stack with
        | [] => simp [hu] at hcond; omega
        | b :: l => simp [hu, List.dropLast]
    · simp
  · show decide (0 < (m.save_state).undo_stack.length) = true
    unfold ShapeManager.save_state
    split
    · next hcond =>
        simp only [List.length_cons] at hcond
        simp [List.length_dropLast]
        omega
    · simp

/-- Witness for C10 at the fresh (empty) manager. -/
theorem claim10_witness :
    ShapeManager.fresh.annotations = [] ∧
    (ShapeManager.fresh.clear.annotations = ShapeManager.fresh.annotations ∧
     ShapeManager.fresh.clear.undo_stack.head? =
       some ShapeManager.fresh.annotations ∧
     ShapeManager.fresh.clear.can_undo = true ∧
     ShapeManager.fresh.clear.can_redo = false) :=
  ⟨rfl, claim10_clear_records_history ShapeManager.fresh rfl⟩

/-- An oracle with all-zero answers, for concrete witnesses. -/
def oracle0 : CairoOracle :=
  { pi := 0, cos := fun _ => 0, sin := fun _ => 0,
    atan2 := fun _ _ => 0, sqrt := fun _ => 0,
    textExtents := fun _ _ _ _ =>
      { x_bearing := 0, y_bearing := 0, width := 0, height := 0 } }

/-- A concrete dialog outcome for witnesses. -/
def dialog0 : DialogResult :=
  { response_ok := false, text := "", bold := false, italic := false,
    size := 14 }

/-- C8: rendering a Dot draws a filled disc of fixed radius 15 — the
radius is not multiplied by the scale factors — centered at the scaled
point `(x1·scaleX, y1·scaleY)`; when a sequence number is present it is
drawn in white bold text at font size 14, positioned at the disc center
shifted left/up by half the measured text extents (i.e. centered in the
disc). -/
theorem claim8_dot_rendering (o : CairoOracle) (a : Shape) (sx sy : ℚ)
    (h : a.tool_type = some Tool.dot) :
    a.draw o sx sy =
      [DrawCmd.setSourceRGB a.color.1 a.color.2.1 a.color.2.2,
       DrawCmd.setLineWidth a.line_width,
       DrawCmd.arc (a.x1 * sx) (a.y1 * sy) 15 0 (2 * o.pi),
       DrawCmd.fill] ++
      (match a.counter with
       | none => []
       | some n =>
         [DrawCmd.setSourceRGB 1 1 1,
          DrawCmd.selectFontFace "Sans" false true,
          DrawCmd.setFontSize 14,
          DrawCmd.moveTo
            (a.x1 * sx -
              ((o.textExtents 14 false true (toString n)).width / 2 +
               (o.textExtents 14 false true (toString n)).x_bearing))
            (a.y1 * sy -
              ((o.textExtents 14 false true (toString n)).height / 2 +
               (o.textExtents 14 false true (toString n)).y_bearing)),
          DrawCmd.showText (toString n)]) := by
  simp only [Shape.draw, Shape.drawDot, h]
  cases a.counter <;> rfl

/-- Witness for C8: a concrete numbered dot at (1,2), scales (2,3). -/
theorem claim8_witness :
    ({ shapeA with counter := some 7 } : Shape).tool_type =
      some Tool.dot ∧
    ({ shapeA with counter := some 7 } : Shape).draw oracle0 2 3 =
      [DrawCmd.setSourceRGB 0 0 1, DrawCmd.setLineWidth 2,
       DrawCmd.arc 2 6 15 0 0, DrawCmd.fill,
       DrawCmd.setSourceRGB 1 1 1,
       DrawCmd.selectFontFace "Sans" false true,
       DrawCmd.setFontSize 14, DrawCmd.moveTo 2 6,
       DrawCmd.showText "7"] :=
  ⟨rfl, (claim8_dot_rendering oracle0 _ 2 3 rfl).trans (by
    norm_num [shapeA, Shape.new, oracle0]
    rfl)⟩

/-- C9: Rectangle rendering is order-independent in its two points:
swapping p1 and p2, or swapping the coordinates per axis, produces the
same command list, and concretely p1=(10,50), p2=(40,10) at scale (1,1)
strokes the rectangle from (10,10) with width 30 and height 40 (i.e. to
(40,50)). -/
theorem claim9_rectangle_order_indep (o : CairoOracle)
    (x1 y1 x2 y2 sx sy : ℚ) (c : ℚ × ℚ × ℚ) (lw : ℚ) :
    ((Shape.new (some Tool.rectangle) x1 y1 (some x2) (some y2) c ""
        false false 14 lw 0).draw o sx sy =
      (Shape.new (some Tool.rectangle) x2 y2 (some x1) (some y1) c ""
        false false 14 lw 0).draw o sx sy) ∧
    ((Shape.new (some Tool.rectangle) x1 y2 (some x2) (some y1) c ""
        false false 14 lw 0).draw o sx sy =
      (Shape.new (some Tool.rectangle) x1 y1 (some x2) (some y2) c ""
        false false 14 lw 0).draw o sx sy) ∧
    ((Shape.new (some Tool.rectangle) x2 y1 (some x1) (some y2) c ""
        false false 14 lw 0).draw o sx sy =
      (Shape.new (some Tool.rectangle) x1 y1 (some x2) (some y2) c ""
        false false 14 lw 0).draw o sx sy) ∧
    (Shape.new (some Tool.rectangle) 10 50 (some 40) (some 10) c ""
        false false 14 lw 0).draw o 1 1 =
      [DrawCmd.setSourceRGB c.1 c.2.1 c.2.2, DrawCmd.setLineWidth lw,
       DrawCmd.rectangle 10 10 30 40, DrawCmd.stroke] := by
  refine ⟨?_, ?_, ?_, ?_⟩ <;>
    simp [Shape.draw, Shape.new, Shape.drawRectangle, min_comm, max_comm]
  norm_num [min_def, max_def]

/-- C7: selecting any tool (including none) discards the pending first
point, the preview point and the pending shape type; and a press right
after a switch to a two-click tool commits no shape (it only records a
fresh first point), so no shape is committed from a first point captured
before a tool switch. -/
theorem claim7_tool_switch_discards_pending (s : PluginState)
    (t : Option Tool) (tl : Tool) (x y : ℚ) (b : Nat) (d : DialogResult)
    (h : tl = Tool.arrow ∨ tl = Tool.rectangle ∨ tl = Tool.circle) :
    ((step s (Event.toolChanged t)).shape_start_point = none ∧
     (step s (Event.toolChanged t)).shape_preview_end = none ∧
     (step s (Event.toolChanged t)).shape_type = none) ∧
    (step (step s (Event.toolChanged (some tl)))
        (Event.buttonPress x y b d)).manager.annotations =
      s.manager.annotations := by
  refine ⟨⟨rfl, rfl, rfl⟩, ?_⟩
  rcases h with h | h | h <;> subst h <;>
    by_cases hb : b = 1 <;>
      simp [step, buttonPress, twoClickPress, hb]

/-- Witness for C7: switching to the arrow tool mid-state and pressing
commits nothing. -/
theorem claim7_witness :
    (Tool.arrow = Tool.arrow ∨ Tool.arrow = Tool.rectangle ∨
      Tool.arrow = Tool.circle) ∧
    ((step PluginState.fresh (Event.toolChanged none)).shape_start_point =
        none ∧
     (step PluginState.fresh (Event.toolChanged none)).shape_preview_end =
        none ∧
     (step PluginState.fresh (Event.toolChanged none)).shape_type =
        none) ∧
    (step (step PluginState.fresh (Event.toolChanged (some Tool.arrow)))
        (Event.buttonPress 3 4 1 dialog0)).manager.annotations =
      PluginState.fresh.manager.annotations :=
  ⟨Or.inl rfl,
   claim7_tool_switch_discards_pending PluginState.fresh none Tool.arrow
     3 4 1 dialog0 (Or.inl rfl)⟩

theorem twoClickPress_counter (s : PluginState) (tool : Tool) (x y : ℚ) :
    (twoClickPress s tool x y).counter = s.counter := by
  obtain ⟨tb, mgr, ctr, ct, ssp, spe, sty, td1, td2, td3⟩ := s
  unfold twoClickPress
  cases ssp with
  | none => rfl
  | some p => obtain ⟨px, py⟩ := p; rfl

theorem buttonPress_counter (s : PluginState) (x y : ℚ) (b : Nat)
    (d : DialogResult) :
    (buttonPress s x y b d).counter = s.counter ∨
      (buttonPress s x y b d).counter = s.counter + 1 := by
  unfold buttonPress
  rcases hct : s.current_tool with _ | tool
  · left; rfl
  · by_cases hb : b = 1
    · subst hb
      cases tool with
      | arrow => left; simpa using twoClickPress_counter s Tool.arrow x y
      | rectangle =>
          left; simpa using twoClickPress_counter s Tool.rectangle x y
      | circle => left; simpa using twoClickPress_counter s Tool.circle x y
      | dot => right; simp
      | text =>
          left
          by_cases hd : d.response_ok = true ∧ d.text ≠ "" <;> simp [hd]
    · left; simp [hb]

theorem step_counter_le (s : PluginState) (e : Event)
    (h : e ≠ Event.clearClicked) : s.counter ≤ (step s e).counter := by
  cases e with
  | clearClicked => exact absurd rfl h
  | buttonPress x y b d =>
      rcases buttonPress_counter s x y b d with h1 | h1 <;>
        simp [step, h1]
  | motion x y =>
      simp only [step]
      split <;> exact Nat.le_refl _
  | toolChanged t => exact Nat.le_refl _
  | undoClicked => exact Nat.le_refl _
  | redoClicked => exact Nat.le_refl _
  | colorChanged r g b => exact Nat.le_refl _
  | lineWidthChanged w => exact Nat.le_refl _
  | arrowStyleChanged st => exact Nat.le_refl _

theorem run_counter_le (s : PluginState) (evs : List Event)
    (h : Event.clearClicked ∉ evs) : s.counter ≤ (run s evs).counter := by
  induction evs generalizing s with
  | nil => exact Nat.le_refl _
  | cons e rest ih =>
      have h1 : e ≠ Event.clearClicked := by
        rintro rfl; exact h (List.mem_cons_self _ _)
      have h2 : Event.clearClicked ∉ rest :=
        fun hm => h (List.mem_cons_of_mem _ hm)
      exact Nat.le_trans (step_counter_le s e h1) (ih (step s e) h2)

/-- C4: the dot counter starts at 1; a dot press commits a shape
numbered with the current counter and increments the counter (so
successive dot commits get strictly increasing numbers); undo and redo
never change the counter; the clear command resets it to 1; and no event
other than clear ever decreases it — over any clear-free event sequence
the counter is monotone. -/
theorem claim4_dot_counter (s : PluginState) (x y : ℚ) (d : DialogResult)
    (e : Event) (evs : List Event) :
    PluginState.fresh.counter = 1 ∧
    (s.current_tool = some Tool.dot →
      (step s (Event.buttonPress x y 1 d)).counter = s.counter + 1 ∧
      (step s (Event.buttonPress x y 1 d)).manager.annotations =
        s.manager.annotations ++
          [{ Shape.new (some Tool.dot) x y none none
               s.toolbar.current_color "" false false 14
               s.toolbar.current_line_width 0 with
             counter := some s.counter }]) ∧
    (step s Event.undoClicked).counter = s.counter ∧
    (step s Event.redoClicked).counter = s.counter ∧
    (step s Event.clearClicked).counter = 1 ∧
    (e ≠ Event.clearClicked → s.counter ≤ (step s e).counter) ∧
    (Event.clearClicked ∉ evs → s.counter ≤ (run s evs).counter) := by
  refine ⟨rfl, ?_, rfl, rfl, rfl, step_counter_le s e, run_counter_le s evs⟩
  intro hct
  constructor
  · show (buttonPress s x y 1 d).counter = s.counter + 1
    simp [buttonPress, hct]
  · show (buttonPress s x y 1 d).manager.annotations = _
    simp [buttonPress, hct, ShapeManager.add_shape, ShapeManager.save_state]

/-- Witness for C4: a dot press on a fresh state armed with the dot tool
assigns number 1 and bumps the counter; a non-clear event keeps the
counter; a clear-free run keeps it. -/
theorem claim4_witness :
    PluginState.current_tool
        (step PluginState.fresh (Event.toolChanged (some Tool.dot))) =
      some Tool.dot ∧
    (step (step PluginState.fresh (Event.toolChanged (some Tool.dot)))
        (Event.buttonPress 3 4 1 dialog0)).counter =
      PluginState.counter
        (step PluginState.fresh (Event.toolChanged (some Tool.dot))) + 1 ∧
    (Event.undoClicked ≠ Event.clearClicked →
      PluginState.fresh.counter ≤
        (step PluginState.fresh Event.undoClicked).counter) := by
  refine ⟨rfl, ?_, ?_⟩
  · exact ((claim4_dot_counter
      (step PluginState.fresh (Event.toolChanged (some Tool.dot)))
      3 4 dialog0 Event.undoClicked []).2.1 rfl).1
  · exact (claim4_dot_counter PluginState.fresh 3 4 dialog0
      Event.undoClicked []).2.2.2.2.2.1

/-- Counterexample to C5 as stated: with an obtainable pixel buffer but a
zero-sized view, the copy export does not abort and does not report
failure — it succeeds (the zero view dimension is clamped via
`max(view_dim, 1)`), contradicting the claim that a zero view dimension
makes the export abort and report failure. -/
theorem claim5_counterexample :
    (on_copy_clicked oracle0
        (some { pixbuf := some { width := 100, height := 80 },
                file := none })
        (some { width := 0, height := 0 }) PluginState.fresh).2 = true :=
  rfl

/-- C5 amended: if the image or its pixel buffer cannot be obtained, or
the view is unavailable, the export render aborts with `none` (and the
copy handler reports failure); a zero view dimension does not abort —
the scale divisor is clamped to 1 and rendering proceeds; in every case
the copy and save handlers return the plugin state (manager, history and
current set included) unchanged. -/
theorem claim5_export_failure_handling (o : CairoOracle)
    (image : Option EogImage) (view : Option Allocation) (s : PluginState)
    (anns : List Shape) (img : EogImage) (pb : Pixbuf)
    (alloc : Allocation) :
    (image = none → render_to_pixbuf o image view anns = none) ∧
    (image = some img → img.pixbuf = none →
      render_to_pixbuf o image view anns = none) ∧
    (view = none → render_to_pixbuf o image view anns = none) ∧
    (image = some img → img.pixbuf = some pb → view = some alloc →
      render_to_pixbuf o image view anns =
        some { width := pb.width, height := pb.height,
               scale_x := (pb.width : ℚ) / ((max alloc.width 1 : Int) : ℚ),
               scale_y := (pb.height : ℚ) /
                 ((max alloc.height 1 : Int) : ℚ),
               commands := DrawCmd.paintImage ::
                 (anns.map (fun a => a.draw o
                   ((pb.width : ℚ) / ((max alloc.width 1 : Int) : ℚ))
                   ((pb.height : ℚ) /
                     ((max alloc.height 1 : Int) : ℚ)))).flatten }) ∧
    (on_copy_clicked o image view s).1 = s ∧
    (render_to_pixbuf o image view s.manager.annotations = none →
      (on_copy_clicked o image view s).2 = false) ∧
    (on_save_clicked o image view s).1 = s := by
  refine ⟨?_, ?_, ?_, ?_, ?_, ?_, ?_⟩
  · rintro rfl; rfl
  · rintro rfl hpb; simp [render_to_pixbuf, hpb]
  · rintro rfl
    cases image with
    | none => rfl
    | some i =>
        cases hpb : i.pixbuf <;> simp [render_to_pixbuf, hpb]
  · rintro rfl hpb rfl; simp [render_to_pixbuf, hpb]
  · unfold on_copy_clicked
    split <;> rfl
  · intro h; simp [on_copy_clicked, h]
  · unfold on_save_clicked
    cases image with
    | none => rfl
    | some i =>
        dsimp only
        split
        · rfl
        · split
          · rfl
          · split <;> rfl

/-- Witness for C5 amended: the abort conditions at concrete inputs. -/
theorem claim5_witness :
    render_to_pixbuf oracle0 none none [] = none ∧
    render_to_pixbuf oracle0
      (some { pixbuf := none, file := none }) none [] = none ∧
    (on_copy_clicked oracle0 none none PluginState.fresh).1 =
      PluginState.fresh := by
  have h := claim5_export_failure_handling oracle0 none none
    PluginState.fresh [] { pixbuf := none, file := none }
    { width := 1, height := 1 } { width := 1, height := 1 }
  have h2 := claim5_export_failure_handling oracle0
    (some { pixbuf := none, file := none }) none PluginState.fresh []
    { pixbuf := none, file := none } { width := 1, height := 1 }
    { width := 1, height := 1 }
  exact ⟨h.1 rfl, h2.2.1 rfl rfl, h.2.2.2.2.1⟩

theorem pyRfind_ge (l : List Char) (c : Char) : -1 ≤ pyRfind l c := by
  induction l with
  | nil => simp [pyRfind]
  | cons a as ih =>
      simp only [pyRfind]
      split
      · omega
      · split <;> omega

theorem pyRfind_lt_length (l : List Char) (c : Char) :
    pyRfind l c < (l.length : Int) := by
  induction l with
  | nil => simp [pyRfind]
  | cons a as ih =>
      simp only [pyRfind, List.length_cons]
      split
      · push_cast
        omega
      · split <;> (push_cast; omega)

theorem pyRfind_neg_iff (l : List Char) (c : Char) :
    pyRfind l c = -1 ↔ c ∉ l := by
  induction l with
  | nil => simp [pyRfind]
  | cons a as ih =>
      simp only [pyRfind, List.mem_cons]
      by_cases hr : 0 ≤ pyRfind as c
      · rw [if_pos hr]
        have hmem : c ∈ as := by
          by_contra hn
          have := ih.mpr hn
          omega
        constructor
        · intro h; omega
        · intro h; exact absurd (Or.inr hmem) h
      · rw [if_neg hr]
        have hneg : pyRfind as c = -1 := by
          have := pyRfind_ge as c; omega
        have hnotin : c ∉ as := ih.mp hneg
        by_cases ha : a = c
        · rw [if_pos ha]
          constructor
          · intro h; omega
          · intro h; exact absurd (Or.inl ha.symm) h
        · rw [if_neg ha]
          constructor
          · intro _
            rintro (h | h)
            · exact ha h.symm
            · exact hnotin h
          · intro _; rfl

theorem pyRfind_append (l1 l2 : List Char) (c : Char) :
    pyRfind (l1 ++ l2) c =
      if c ∈ l2 then (l1.length : Int) + pyRfind l2 c else pyRfind l1 c := by
  induction l1 with
  | nil =>
      simp only [List.nil_append, List.length_nil, Nat.cast_zero, zero_add]
      by_cases hm : c ∈ l2
      · rw [if_pos hm]
      · rw [if_neg hm]
        exact (pyRfind_neg_iff l2 c).mpr hm
  | cons a l1' ih =>
      simp only [List.cons_append, pyRfind, List.append_eq, ih,
        List.length_cons]
      by_cases hm : c ∈ l2
      · simp only [if_pos hm]
        have h2 : 0 ≤ pyRfind l2 c := by
          have hge := pyRfind_ge l2 c
          have hne : pyRfind l2 c ≠ -1 :=
            fun h => ((pyRfind_neg_iff l2 c).mp h) hm
          omega
        rw [if_pos (by omega : (0 : Int) ≤ (l1'.length : Int) + pyRfind l2 c)]
        push_cast
        omega
      · simp only [if_neg hm]

theorem pyRfind_get (l : List Char) (c : Char) (h : 0 ≤ pyRfind l c) :
    l.get? (pyRfind l c).toNat = some c := by
  induction l with
  | nil => simp [pyRfind] at h
  | cons a as ih =>
      simp only [pyRfind] at h ⊢
      by_cases hr : 0 ≤ pyRfind as c
      · rw [if_pos hr]
        have ht : (pyRfind as c + 1).toNat = (pyRfind as c).toNat + 1 := by
          omega
        rw [ht, List.get?_cons_succ]
        exact ih hr
      · rw [if_neg hr] at h ⊢
        by_cases ha : a = c
        · rw [if_pos ha]
          simp [ha]
        · rw [if_neg ha] at h
          omega

theorem pyRfind_last (l : List Char) (c : Char) :
    c ∉ l.drop ((pyRfind l c).toNat + 1) := by
  induction l with
  | nil => simp
  | cons a as ih =>
      simp only [pyRfind]
      by_cases hr : 0 ≤ pyRfind as c
      · rw [if_pos hr]
        have ht : (pyRfind as c + 1).toNat + 1 =
            ((pyRfind as c).toNat + 1) + 1 := by omega
        rw [ht, List.drop_succ_cons]
        exact ih
      · rw [if_neg hr]
        have hneg : pyRfind as c = -1 := by
          have := pyRfind_ge as c; omega
        have hnotin : c ∉ as := (pyRfind_neg_iff as c).mp hneg
        by_cases ha : a = c
        · rw [if_pos ha]
          simpa using hnotin
        · rw [if_neg ha]
          simpa using hnotin

theorem mem_drop_le_pyRfind (l : List Char) (c : Char) (n : Nat)
    (h : c ∈ l.drop n) : (n : Int) ≤ pyRfind l c := by
  have hn : n ≤ l.length := by
    by_contra hgt
    rw [List.drop_eq_nil_of_le (by omega)] at h
    simp at h
  have key := pyRfind_append (l.take n) (l.drop n) c
  rw [List.take_append_drop] at key
  rw [key, if_pos h]
  have h0 : 0 ≤ pyRfind (l.drop n) c := by
    have hge := pyRfind_ge (l.drop n) c
    have hne : pyRfind (l.drop n) c ≠ -1 :=
      fun hh => ((pyRfind_neg_iff _ c).mp hh) h
    omega
  have hlen : (l.take n).length = n := by
    rw [List.length_take]
    omega
  rw [hlen]
  omega

/-- The second `splitext` of the unknown-extension branch recovers
exactly `base ++ "-annotated"`: splitting `base ++ "-annotated" ++ ext`,
where `(base, ext)` came from `splitextList`, splits right at `ext`. -/
theorem splitextList_annotated (l : List Char) :
    splitextList
        (((splitextList l).1 ++ "-annotated".data) ++ (splitextList l).2) =
      ((splitextList l).1 ++ "-annotated".data, (splitextList l).2) := by
  have hanno_dot : '.' ∉ "-annotated".data := by decide
  have hanno_sep : '/' ∉ "-annotated".data := by decide
  by_cases hc : pyRfind l '/' < pyRfind l '.' ∧
      (List.range' (pyRfind l '/' + 1).toNat
          (pyRfind l '.' - pyRfind l '/' - 1).toNat).any
        (fun i => decide (l.getD i '.' ≠ '.')) = true
  case neg =>
    have hl : splitextList l = (l, []) := by
      simp only [splitextList, if_neg hc]
    rw [hl]
    simp only [List.append_nil]
    have hsep : pyRfind (l ++ "-annotated".data) '/' = pyRfind l '/' := by
      rw [pyRfind_append, if_neg hanno_sep]
    have hdot : pyRfind (l ++ "-annotated".data) '.' = pyRfind l '.' := by
      rw [pyRfind_append, if_neg hanno_dot]
    have hq : ¬ (pyRfind (l ++ "-annotated".data) '/' <
        pyRfind (l ++ "-annotated".data) '.' ∧
        (List.range' (pyRfind (l ++ "-annotated".data) '/' + 1).toNat
            (pyRfind (l ++ "-annotated".data) '.' -
              pyRfind (l ++ "-annotated".data) '/' - 1).toNat).any
          (fun i =>
            decide ((l ++ "-annotated".data).getD i '.' ≠ '.')) = true) := by
      rw [hsep, hdot]
      rintro ⟨h1, h2⟩
      apply hc
      refine ⟨h1, ?_⟩
      rw [List.any_eq_true] at h2 ⊢
      obtain ⟨i, hi, hpi⟩ := h2
      refine ⟨i, hi, ?_⟩
      have hrange := List.mem_range'_1.mp hi
      have hsge := pyRfind_ge l '/'
      have hdlt := pyRfind_lt_length l '.'
      have hil : i < l.length := by omega
      rwa [List.getD_append _ _ _ _ hil] at hpi
    simp only [splitextList, if_neg hq]
  case pos =>
    obtain ⟨hsd, hex⟩ := hc
    have hl : splitextList l =
        (l.take (pyRfind l '.').toNat, l.drop (pyRfind l '.').toNat) := by
      simp only [splitextList, if_pos (And.intro hsd hex)]
    rw [hl]
    have hsge := pyRfind_ge l '/'
    have hdot0 : 0 ≤ pyRfind l '.' := by omega
    have hdlt := pyRfind_lt_length l '.'
    have hdotInt : (((pyRfind l '.').toNat : Nat) : Int) = pyRfind l '.' :=
      Int.toNat_of_nonneg hdot0
    have hblen : (l.take (pyRfind l '.').toNat).length =
        (pyRfind l '.').toNat := by
      rw [List.length_take]
      omega
    have he_get : (l.drop (pyRfind l '.').toNat).get? 0 = some '.' := by
      rw [List.get?_drop, Nat.add_zero]
      exact pyRfind_get l '.' hdot0
    have he_mem : '.' ∈ l.drop (pyRfind l '.').toNat :=
      List.get?_mem he_get
    have he_sep : '/' ∉ l.drop (pyRfind l '.').toNat := by
      intro hmem
      have := mem_drop_le_pyRfind l '/' (pyRfind l '.').toNat hmem
      omega
    have he_rf : pyRfind (l.drop (pyRfind l '.').toNat) '.' = 0 := by
      match he2 : l.drop (pyRfind l '.').toNat with
      | [] => rw [he2] at he_get; simp at he_get
      | c0 :: rest =>
          rw [he2] at he_get
          simp only [List.get?_cons_zero, Option.some.injEq] at he_get
          have hrest : '.' ∉ rest := by
            have hlast := pyRfind_last l '.'
            have h1 : (l.drop (pyRfind l '.').toNat).drop 1 =
                l.drop ((pyRfind l '.').toNat + 1) := List.drop_drop 1 _ l
            rw [he2, List.drop_succ_cons, List.drop_zero] at h1
            rwa [← h1] at hlast
          simp only [pyRfind]
          rw [if_neg, if_pos he_get]
          have : pyRfind rest '.' = -1 := (pyRfind_neg_iff rest '.').mpr hrest
          omega
    have hbe : l.take (pyRfind l '.').toNat ++
        l.drop (pyRfind l '.').toNat = l := List.take_append_drop _ l
    have hsep_b : pyRfind (l.take (pyRfind l '.').toNat) '/' =
        pyRfind l '/' := by
      conv_rhs => rw [← hbe]
      rw [pyRfind_append, if_neg he_sep]
    have hq_dot : pyRfind ((l.take (pyRfind l '.').toNat ++
        "-annotated".data) ++ l.drop (pyRfind l '.').toNat) '.' =
        (((l.take (pyRfind l '.').toNat ++ "-annotated".data).length : Nat) :
          Int) := by
      rw [pyRfind_append, if_pos he_mem, he_rf, add_zero]
    have hq_sep : pyRfind ((l.take (pyRfind l '.').toNat ++
        "-annotated".data) ++ l.drop (pyRfind l '.').toNat) '/' =
        pyRfind l '/' := by
      rw [pyRfind_append, if_neg he_sep, pyRfind_append, if_neg hanno_sep,
        hsep_b]
    have hlen_ba : (l.take (pyRfind l '.').toNat ++
        "-annotated".data).length = (pyRfind l '.').toNat + 10 := by
      rw [List.length_append, hblen]
      rfl
    have hgetq : ((l.take (pyRfind l '.').toNat ++ "-annotated".data) ++
        l.drop (pyRfind l '.').toNat).getD
          (l.take (pyRfind l '.').toNat).length '.' = '-' := by
      rw [List.append_assoc]
      rw [List.getD_append_right _ _ _ _ (Nat.le_refl _)]
      simp only [Nat.sub_self]
      rw [List.getD_append _ _ _ _ (by decide : 0 < ("-annotated".data).length)]
      rfl
    have hq_cond : pyRfind ((l.take (pyRfind l '.').toNat ++
        "-annotated".data) ++ l.drop (pyRfind l '.').toNat) '/' <
        pyRfind ((l.take (pyRfind l '.').toNat ++ "-annotated".data) ++
          l.drop (pyRfind l '.').toNat) '.' ∧
        (List.range'
            (pyRfind ((l.take (pyRfind l '.').toNat ++ "-annotated".data) ++
              l.drop (pyRfind l '.').toNat) '/' + 1).toNat
            (pyRfind ((l.take (pyRfind l '.').toNat ++ "-annotated".data) ++
              l.drop (pyRfind l '.').toNat) '.' -
              pyRfind ((l.take (pyRfind l '.').toNat ++ "-annotated".data) ++
                l.drop (pyRfind l '.').toNat) '/' - 1).toNat).any
          (fun i =>
            decide ((((l.take (pyRfind l '.').toNat ++ "-annotated".data) ++
              l.drop (pyRfind l '.').toNat)).getD i '.' ≠ '.')) = true := by
      constructor
      · rw [hq_sep, hq_dot, hlen_ba]
        push_cast
        omega
      · rw [List.any_eq_true]
        refine ⟨(l.take (pyRfind l '.').toNat).length, ?_, ?_⟩
        · rw [hq_sep, hq_dot, List.mem_range'_1, hlen_ba, hblen]
          constructor
          · omega
          · omega
        · rw [hgetq]
          decide
    simp only [splitextList, if_pos hq_cond]
    rw [hq_dot]
    simp only [Int.toNat_natCast]
    rw [List.take_left, List.drop_left]

theorem strEq_of_data (a b : String) (h : a.data = b.data) : a = b := by
  cases a; cases b; exact congrArg String.mk h

theorem str_data_append (a b : String) : (a ++ b).data = a.data ++ b.data := by
  cases a; cases b; rfl

/-- Spec-side restatement of the output-file convention (spec §6/§8):
`<original-basename>-annotated.<ext>`; JPEG at quality 95 for a
case-insensitive `.jpg`/`.jpeg` extension, PNG for `.png`, and an
unknown extension replaced by `.png` with the PNG encoder. -/
def savePathSpecRule (p : String) : String × ImageFormat :=
  if lowerStr (splitext p).2 = ".jpg" ∨ lowerStr (splitext p).2 = ".jpeg" then
    ((splitext p).1 ++ "-annotated" ++ (splitext p).2, ImageFormat.jpeg95)
  else if lowerStr (splitext p).2 = ".png" then
    ((splitext p).1 ++ "-annotated" ++ (splitext p).2, ImageFormat.png)
  else ((splitext p).1 ++ "-annotated" ++ ".png", ImageFormat.png)

theorem splitext_annotated (p : String) :
    (splitext ((splitext p).1 ++ "-annotated" ++ (splitext p).2)).1 =
      (splitext p).1 ++ "-annotated" := by
  apply strEq_of_data
  have h1 : ((splitext p).1 ++ "-annotated" ++ (splitext p).2).data =
      ((splitextList p.data).1 ++ "-annotated".data) ++
        (splitextList p.data).2 := by
    rw [str_data_append, str_data_append]
    rfl
  have h2 : (splitext ((splitext p).1 ++ "-annotated" ++
      (splitext p).2)).1.data =
      (splitextList (((splitextList p.data).1 ++ "-annotated".data) ++
        (splitextList p.data).2)).1 := by
    show (splitextList (((splitext p).1 ++ "-annotated" ++
      (splitext p).2).data)).1 = _
    rw [h1]
  rw [h2, splitextList_annotated, str_data_append]
  rfl

theorem save_output_eq_spec (p : String) :
    save_output p = savePathSpecRule p := by
  simp only [save_output, savePathSpecRule]
  by_cases h1 : lowerStr (splitext p).2 = ".jpg" ∨
      lowerStr (splitext p).2 = ".jpeg"
  · rw [if_pos h1, if_pos h1]
  · rw [if_neg h1, if_neg h1]
    by_cases h2 : lowerStr (splitext p).2 = ".png"
    · rw [if_pos h2, if_pos h2]
    · rw [if_neg h2, if_neg h2, splitext_annotated]

/-- C6: for every input path the save operation derives the output path
by inserting `-annotated` between the basename and the extension,
keeping the extension and choosing the JPEG encoder at quality 95 for a
case-insensitive JPEG extension, keeping it with the PNG encoder for
`.png`, and replacing an unrecognized extension with `.png` under the
PNG encoder; concretely `photo.jpg` yields `photo-annotated.jpg` and
`photo.xyz` yields `photo-annotated.png`. -/
theorem claim6_save_path_derivation (p : String) :
    save_output p = savePathSpecRule p ∧
    save_output "photo.jpg" = ("photo-annotated.jpg", ImageFormat.jpeg95) ∧
    save_output "photo.xyz" = ("photo-annotated.png", ImageFormat.png) ∧
    save_output "photo.JPG" = ("photo-annotated.JPG", ImageFormat.jpeg95) ∧
    save_output "photo.PNG" = ("photo-annotated.PNG", ImageFormat.png) :=
  ⟨save_output_eq_spec p, by decide, by decide, by decide, by decide⟩

end EogAnn
